import Mathlib

/-!
Shallow embedding of the pipecat langchain/langgraph bridge processors
(src/pipecat/processors/frameworks/langchain.py and langgraph.py) and
verification of the specified properties.

The two processors receive pipeline frames; on an LLMMessagesFrame they
invoke an opaque generative backend and republish its asynchronous stream
as a bracketed sequence of frames, containing any mid-stream fault.  The
async drain loop is modeled as structural recursion over the finite list
of elements the backend yields before it either exhausts normally or
raises a fault; pushes to the downstream sink are collected as an ordered
list of frames.
-/

namespace Pipecat

/-- FrameDirection from pipecat.processors.frame_processor. -/
inductive FrameDirection
  | downstream
  | upstream
  deriving DecidableEq, Repr

/-- One message record carried by an LLMMessagesFrame: a dict with at
least a role and a content entry (the code reads only "content"). -/
structure Message where
  role : String
  content : String
  deriving DecidableEq, Repr

/-- A retrieved document as the bridge observes it.  The langgraph code
only ever calls the external pydantic method dict(exclude_none=True) on a
document, so the document is modeled by that resulting opaque payload. -/
structure Document where
  dictExcludeNone : String
  deriving DecidableEq, Repr

/-- The pipecat frames this code constructs or inspects, plus a catch-all
constructor for every other frame kind travelling through the pipeline
(audio, control signals, ...), which this stage only ever forwards. -/
inductive Frame
  | llmMessages (messages : List Message)
  | llmFullResponseStart
  | llmFullResponseEnd
  | llmResponseStart
  | llmResponseEnd
  | textFrame (text : String)
  | toolResultMessage (result : String)
  | other (tag : Nat)
  deriving DecidableEq, Repr

/-- A fault raised by the backend async generator while the bridge drains
it: either the generator was closed prematurely (GeneratorExit) or some
unexpected exception carrying a message. -/
inductive StreamFault
  | generatorExit
  | unexpected (msg : String)
  deriving DecidableEq, Repr

/-- The observable behavior of one backend stream: the finite list of
elements it yields in order, then either normal exhaustion
(fault = none) or a raised fault.  A fault on open is the case
elems = [] with fault = some f. -/
structure BackendStream (α : Type) where
  elems : List α
  fault : Option StreamFault
  deriving Repr

/-- Python str.strip() with no arguments, on the ASCII whitespace set. -/
def isPyWhitespace (c : Char) : Bool :=
  c = ' ' || c = '\t' || c = '\n' || c = '\r' || c = '\x0b' || c = '\x0c'

/-- Python text.strip(). -/
def pyStrip (s : String) : String :=
  String.mk (((s.toList.dropWhile isPyWhitespace).reverse.dropWhile
    isPyWhitespace).reverse)

/-- Python dict with string keys.  This program observes its dicts only
through key lookup (the dict is handed opaquely to the backend), so it is
modeled as an association list where the first binding of a key wins. -/
abbrev Config := List (String × String)

/-- Python dict.update(u): bindings of u take precedence over existing
ones and keys not mentioned in u persist; under the first-binding-wins
observation model this is prepending u. -/
def dictUpdate (c u : Config) : Config := u ++ c

/-- Semantics of the try statement wrapping the drain loop: the body
pushed `frames` and then raised `fault` (if any); a fault matched by an
except clause becomes a logged diagnostic line, an unmatched fault
escapes to the caller. -/
def runTryStmt (handlers : StreamFault → Option String)
    (frames : List Frame) (fault : Option StreamFault) :
    List Frame × Option String × Option StreamFault :=
  match fault with
  | none => (frames, none, none)
  | some f =>
    match handlers f with
    | some d => (frames, some d, none)
    | none => (frames, none, some f)

/-- Result of one _ainvoke call: the frames pushed downstream in order,
the diagnostic recorded by an except clause (if any), and the fault
re-raised to the caller (if any escaped the try statement). -/
structure InvokeResult where
  pushed : List Frame
  diag : Option String
  raised : Option StreamFault
  deriving DecidableEq, Repr

/-- Result of one process_frame call: the (frame, direction) pairs pushed
in order, the InvocationRequests issued to the backend, the recorded
diagnostic, and the exception escaping to the caller (if any). -/
structure ProcessResult (Req : Type) where
  pushed : List (Frame × FrameDirection)
  calls : List Req
  diag : Option String
  raised : Option String
  deriving Repr

end Pipecat

namespace LangchainProcessor

open Pipecat

/-- One element yielded by chain.astream: a plain str, an AIMessageChunk
(modeled by its text content), or a value of any other shape. -/
inductive ChainElem
  | str (s : String)
  | chunk (content : String)
  | unrecognized
  deriving DecidableEq, Repr

/-- The InvocationRequest of one chain.astream call: the input dict
\x7bself._transcript_key: text\x7d and config["configurable"] = self._config. -/
structure InvocationRequest where
  inputs : List (String × String)
  configurable : Config
  deriving DecidableEq, Repr

/-- The opaque Runnable chain, modeled by the stream its astream call
produces for a given request. -/
abbrev ChainBackend := InvocationRequest → BackendStream ChainElem

/-- LangchainProcessor state: the chain, the mutable _config dict
(initialized empty) and the _transcript_key (default "input"). -/
structure State where
  chain : ChainBackend
  config : Config
  transcriptKey : String

/-- LangchainProcessor.set_configurable: self._config.update(configurable). -/
def setConfigurable (p : State) (configurable : Config) : State :=
  { p with config := dictUpdate p.config configurable }

/-- LangchainProcessor.__get_token_value: match on the element shape;
a str is returned unchanged, an AIMessageChunk yields text.content, and
any other shape yields the empty string. -/
def getTokenValue : ChainElem → String
  | .str s => s
  | .chunk content => content
  | .unrecognized => ""

/-- The body of the async for loop of _ainvoke: for each token, in
arrival order, push TextFrame(__get_token_value(token)) before the next
element is requested. -/
def chainDrain : List ChainElem → List Frame
  | [] => []
  | token :: rest => Frame.textFrame (getTokenValue token) :: chainDrain rest

/-- The translation of one stream element of the simple tier, as the
loop body performs it: exactly one TextFrame carrying the extracted
token text. -/
def chainElemFrames (t : ChainElem) : List Frame :=
  [Frame.textFrame (getTokenValue t)]

/-- The except clauses of LangchainProcessor._ainvoke: GeneratorExit is
caught and logged as a warning, any other Exception is caught and logged
as an error; both fall through. -/
def chainHandlers : StreamFault → Option String
  | .generatorExit => some "Generator was closed prematurely"
  | .unexpected e => some ("An unknown error occurred: " ++ e)

/-- The request _ainvoke builds for chain.astream: the positional dict
argument and the configurable mapping of the config argument. -/
def requestOf (p : State) (text : String) : InvocationRequest :=
  { inputs := [(p.transcriptKey, text)], configurable := p.config }

/-- LangchainProcessor._ainvoke: push LLMFullResponseStartFrame, drain
chain.astream inside the try statement, and push LLMFullResponseEndFrame
after it.  If a fault escaped the try statement the final push would be
skipped and the fault re-raised; the request issued to the backend is
returned alongside for observation. -/
def ainvoke (p : State) (text : String) : InvokeResult × InvocationRequest :=
  let req : InvocationRequest := requestOf p text
  let s := p.chain req
  let (body, diag, raised) := runTryStmt chainHandlers (chainDrain s.elems) s.fault
  ({ pushed := Frame.llmFullResponseStart ::
       (body ++ (match raised with
         | none => [Frame.llmFullResponseEnd]
         | some _ => []))
     diag := diag
     raised := raised }, req)

/-- LangchainProcessor.process_frame: an LLMMessagesFrame triggers
_ainvoke on the stripped content of the last message (frame.messages[-1]
raises IndexError on an empty list, before anything is pushed); every
other frame is pushed through with its direction preserved. -/
def processFrame (p : State) (frame : Frame) (direction : FrameDirection) :
    ProcessResult InvocationRequest :=
  match frame with
  | .llmMessages messages =>
    match messages.getLast? with
    | none =>
      { pushed := [], calls := [], diag := none
        raised := some "IndexError: list index out of range" }
    | some m =>
      let (r, req) := ainvoke p (pyStrip m.content)
      { pushed := r.pushed.map (fun f => (f, FrameDirection.downstream))
        calls := [req]
        diag := r.diag
        raised := (r.raised.map (fun _ => "StreamFault")) }
  | f => { pushed := [(f, direction)], calls := [], diag := none, raised := none }

end LangchainProcessor

namespace LanggraphProcessor

open Pipecat

/-- One event yielded by graph.astream_events, matched by the code on
event["event"].  on_chat_model_stream carries event["data"]["chunk"]
(a str or an AIMessageChunk or anything else, exactly the shapes the
token extractor distinguishes); on_tool_start carries a name and input
used only for logging; on_retriever_end carries
event["data"]["output"]["documents"]; any other kind is opaque. -/
inductive GraphEvent
  | onChatModelStream (chunk : LangchainProcessor.ChainElem)
  | onToolStart (name : String) (input : Option String)
  | onToolEnd
  | onRetrieverEnd (docs : List Document)
  | otherEvent (kind : String)
  deriving DecidableEq, Repr

/-- The request of one graph.astream_events call: the input dict
\x7b"messages": [HumanMessage(content=text)]\x7d, modeled by the message
contents, and config["configurable"]["thread_id"] = self._participant_id. -/
structure GraphInvocationRequest where
  messages : List String
  threadId : Option String
  deriving DecidableEq, Repr

/-- The opaque CompiledGraph, modeled by the event stream its
astream_events call produces for a given request. -/
abbrev GraphBackend := GraphInvocationRequest → BackendStream GraphEvent

/-- LanggraphProcessor state: the graph and the mutable _participant_id
(initialized None). -/
structure State where
  graph : GraphBackend
  participantId : Option String

/-- LanggraphProcessor.set_participant_id. -/
def setParticipantId (p : State) (participantId : String) : State :=
  { p with participantId := some participantId }

/-- LanggraphProcessor.__get_token_value: identical match to the
langchain one, except that the chunk arm wraps the content in str();
with the content text modeled as a string, str() is the identity. -/
def getTokenValue : LangchainProcessor.ChainElem → String
  | .str s => s
  | .chunk content => content
  | .unrecognized => ""

/-- The match statement in the body of the async for loop of _ainvoke,
giving the frames pushed for one event: on_chat_model_stream pushes
LLMResponseStartFrame, TextFrame(__get_token_value(chunk)) and
LLMResponseEndFrame; on_tool_start only logs; on_tool_end is a no-op
placeholder; on_retriever_end pushes one
ToolResultMessage(doc.dict(exclude_none=True)) per document in order;
anything else falls through to pass. -/
def eventFrames : GraphEvent → List Frame
  | .onChatModelStream chunk =>
    [Frame.llmResponseStart, Frame.textFrame (getTokenValue chunk),
     Frame.llmResponseEnd]
  | .onToolStart _ _ => []
  | .onToolEnd => []
  | .onRetrieverEnd docs =>
    docs.map (fun doc => Frame.toolResultMessage doc.dictExcludeNone)
  | .otherEvent _ => []

/-- The async for loop of _ainvoke: each event is handled, its frames
pushed in order, before the next event is requested. -/
def graphDrain : List GraphEvent → List Frame
  | [] => []
  | event :: rest => eventFrames event ++ graphDrain rest

/-- The except clauses of LanggraphProcessor._ainvoke: GeneratorExit and
any other Exception are both caught and logged; both fall through. -/
def graphHandlers : StreamFault → Option String
  | .generatorExit => some "generator was closed prematurely"
  | .unexpected e => some ("an unknown error occurred: " ++ e)

/-- The request _ainvoke builds for graph.astream_events: one
HumanMessage holding the text, and the thread_id of the configurable
mapping. -/
def graphRequestOf (p : State) (text : String) : GraphInvocationRequest :=
  { messages := [text], threadId := p.participantId }

/-- LanggraphProcessor._ainvoke: push LLMFullResponseStartFrame, drain
graph.astream_events inside the try statement, then push
LLMFullResponseEndFrame after it (skipped only if a fault escaped the
try statement, which would then be re-raised to the caller). -/
def ainvoke (p : State) (text : String) :
    InvokeResult × GraphInvocationRequest :=
  let req : GraphInvocationRequest := graphRequestOf p text
  let s := p.graph req
  let (body, diag, raised) := runTryStmt graphHandlers (graphDrain s.elems) s.fault
  ({ pushed := Frame.llmFullResponseStart ::
       (body ++ (match raised with
         | none => [Frame.llmFullResponseEnd]
         | some _ => []))
     diag := diag
     raised := raised }, req)

/-- LanggraphProcessor.process_frame: same adapter as the langchain one;
an LLMMessagesFrame triggers _ainvoke on the stripped content of the
last message (frame.messages[-1] raises IndexError on an empty list,
before anything is pushed); every other frame is pushed through with its
direction preserved. -/
def processFrame (p : State) (frame : Frame) (direction : FrameDirection) :
    ProcessResult GraphInvocationRequest :=
  match frame with
  | .llmMessages messages =>
    match messages.getLast? with
    | none =>
      { pushed := [], calls := [], diag := none
        raised := some "IndexError: list index out of range" }
    | some m =>
      let (r, req) := ainvoke p (pyStrip m.content)
      { pushed := r.pushed.map (fun f => (f, FrameDirection.downstream))
        calls := [req]
        diag := r.diag
        raised := (r.raised.map (fun _ => "StreamFault")) }
  | f => { pushed := [(f, direction)], calls := [], diag := none, raised := none }

end LanggraphProcessor

namespace Pipecat

/-- Frames that the drain loops may push strictly inside the framing
bracket: payload frames and the sub-bracket markers, never the outer
full-response markers and never an LLMMessagesFrame. -/
def isMidFrame : Frame → Bool
  | .llmResponseStart => true
  | .llmResponseEnd => true
  | .textFrame _ => true
  | .toolResultMessage _ => true
  | _ => false

end Pipecat

namespace LangchainProcessor

open Pipecat

theorem runTry_chainHandlers (frames : List Frame) (fault : Option StreamFault) :
    runTryStmt chainHandlers frames fault
      = (frames, fault.bind chainHandlers, none) := by
  cases fault with
  | none => rfl
  | some f => cases f <;> rfl

theorem ainvoke_eq (p : State) (text : String) :
    ainvoke p text =
      (⟨Frame.llmFullResponseStart ::
          (chainDrain (p.chain (requestOf p text)).elems
            ++ [Frame.llmFullResponseEnd]),
        (p.chain (requestOf p text)).fault.bind chainHandlers,
        none⟩,
       requestOf p text) := by
  simp only [ainvoke, runTry_chainHandlers]

theorem mem_chainDrain_isMid (ts : List ChainElem) :
    ∀ f ∈ chainDrain ts, isMidFrame f = true := by
  induction ts with
  | nil => intro f hf; simp [chainDrain] at hf
  | cons t ts ih =>
    intro f hf
    rcases List.mem_cons.mp hf with h | h
    · subst h; rfl
    · exact ih f h

theorem chainDrain_append (xs ys : List ChainElem) :
    chainDrain (xs ++ ys) = chainDrain xs ++ chainDrain ys := by
  induction xs with
  | nil => rfl
  | cons x xs ih => simp [chainDrain, ih]

end LangchainProcessor

namespace LanggraphProcessor

open Pipecat

theorem runTry_graphHandlers (frames : List Frame) (fault : Option StreamFault) :
    runTryStmt graphHandlers frames fault
      = (frames, fault.bind graphHandlers, none) := by
  cases fault with
  | none => rfl
  | some f => cases f <;> rfl

theorem ainvoke_graph_eq (p : State) (text : String) :
    ainvoke p text =
      (⟨Frame.llmFullResponseStart ::
          (graphDrain (p.graph (graphRequestOf p text)).elems
            ++ [Frame.llmFullResponseEnd]),
        (p.graph (graphRequestOf p text)).fault.bind graphHandlers,
        none⟩,
       graphRequestOf p text) := by
  simp only [ainvoke, runTry_graphHandlers]

theorem mem_eventFrames_isMid (e : GraphEvent) :
    ∀ f ∈ eventFrames e, isMidFrame f = true := by
  intro f hf
  cases e <;> simp [eventFrames] at hf
  case onChatModelStream chunk =>
    rcases hf with h | h | h <;> subst h <;> rfl
  case onRetrieverEnd docs =>
    obtain ⟨d, _, h⟩ := hf
    subst h; rfl

theorem mem_graphDrain_isMid (es : List GraphEvent) :
    ∀ f ∈ graphDrain es, isMidFrame f = true := by
  induction es with
  | nil => intro f hf; simp [graphDrain] at hf
  | cons e es ih =>
    intro f hf
    rcases List.mem_append.mp hf with h | h
    · exact mem_eventFrames_isMid e f h
    · exact ih f h

theorem graphDrain_append (xs ys : List GraphEvent) :
    graphDrain (xs ++ ys) = graphDrain xs ++ graphDrain ys := by
  induction xs with
  | nil => rfl
  | cons x xs ih => simp [graphDrain, ih]

end LanggraphProcessor

namespace Pipecat

theorem getLast_of_bracket (a b : Frame) (l : List Frame) :
    (a :: (l ++ [b])).getLast? = some b := by
  rw [show a :: (l ++ [b]) = (a :: l) ++ [b] by simp]
  rw [List.getLast?_concat]

end Pipecat

/-- C1: for every invocation of _ainvoke of either processor, under any
backend stream outcome (normal exhaustion, empty stream, mid-stream
fault, fault on open — all encoded by the arbitrary backend held in the
processor state), the pushed frame sequence is exactly one
LLMFullResponseStartFrame, then payload and sub-bracket frames only,
then exactly one LLMFullResponseEndFrame; no payload frame lies outside
the bracket and the end marker appears even when the stream faults. -/
theorem framing_bracket_invariant (p : LangchainProcessor.State)
    (q : LanggraphProcessor.State) (text : String) :
    (∃ mid, (LangchainProcessor.ainvoke p text).1.pushed
        = Pipecat.Frame.llmFullResponseStart ::
            (mid ++ [Pipecat.Frame.llmFullResponseEnd])
      ∧ (∀ f ∈ mid, Pipecat.isMidFrame f = true)
      ∧ Pipecat.Frame.llmFullResponseStart ∉ mid
      ∧ Pipecat.Frame.llmFullResponseEnd ∉ mid)
    ∧ (∃ mid, (LanggraphProcessor.ainvoke q text).1.pushed
        = Pipecat.Frame.llmFullResponseStart ::
            (mid ++ [Pipecat.Frame.llmFullResponseEnd])
      ∧ (∀ f ∈ mid, Pipecat.isMidFrame f = true)
      ∧ Pipecat.Frame.llmFullResponseStart ∉ mid
      ∧ Pipecat.Frame.llmFullResponseEnd ∉ mid) := by
  constructor
  · refine ⟨LangchainProcessor.chainDrain
      (p.chain (LangchainProcessor.requestOf p text)).elems, ?_, ?_, ?_, ?_⟩
    · rw [LangchainProcessor.ainvoke_eq]
    · exact LangchainProcessor.mem_chainDrain_isMid _
    · intro h
      have := LangchainProcessor.mem_chainDrain_isMid _ _ h
      simp [Pipecat.isMidFrame] at this
    · intro h
      have := LangchainProcessor.mem_chainDrain_isMid _ _ h
      simp [Pipecat.isMidFrame] at this
  · refine ⟨LanggraphProcessor.graphDrain
      (q.graph (LanggraphProcessor.graphRequestOf q text)).elems, ?_, ?_, ?_, ?_⟩
    · rw [LanggraphProcessor.ainvoke_graph_eq]
    · exact LanggraphProcessor.mem_graphDrain_isMid _
    · intro h
      have := LanggraphProcessor.mem_graphDrain_isMid _ _ h
      simp [Pipecat.isMidFrame] at this
    · intro h
      have := LanggraphProcessor.mem_graphDrain_isMid _ _ h
      simp [Pipecat.isMidFrame] at this

/-- C2: for every invocation of either processor, no fault raised by the
backend stream escapes _ainvoke (raised = none, for every backend), the
fault is only recorded as the diagnostic produced by the matching except
clause, and the response still ends with LLMFullResponseEndFrame.
Concretely, a backend yielding "Hi" and then raising produces exactly
ResponseStart, TextChunk("Hi"), ResponseEnd. -/
theorem fault_containment (p : LangchainProcessor.State)
    (q : LanggraphProcessor.State) (text : String) :
    ((LangchainProcessor.ainvoke p text).1.raised = none
      ∧ (LangchainProcessor.ainvoke p text).1.diag
          = (p.chain (LangchainProcessor.requestOf p text)).fault.bind
              LangchainProcessor.chainHandlers
      ∧ ((LangchainProcessor.ainvoke p text).1.pushed).getLast?
          = some Pipecat.Frame.llmFullResponseEnd)
    ∧ ((LanggraphProcessor.ainvoke q text).1.raised = none
      ∧ (LanggraphProcessor.ainvoke q text).1.diag
          = (q.graph (LanggraphProcessor.graphRequestOf q text)).fault.bind
              LanggraphProcessor.graphHandlers
      ∧ ((LanggraphProcessor.ainvoke q text).1.pushed).getLast?
          = some Pipecat.Frame.llmFullResponseEnd)
    ∧ (LangchainProcessor.ainvoke
        ⟨fun _ => ⟨[.str "Hi"], some (.unexpected "boom")⟩, [], "input"⟩
        "x").1
      = ⟨[Pipecat.Frame.llmFullResponseStart, Pipecat.Frame.textFrame "Hi",
          Pipecat.Frame.llmFullResponseEnd],
         some "An unknown error occurred: boom", none⟩ := by
  refine ⟨⟨?_, ?_, ?_⟩, ⟨?_, ?_, ?_⟩, ?_⟩
  · rw [LangchainProcessor.ainvoke_eq]
  · rw [LangchainProcessor.ainvoke_eq]
  · rw [LangchainProcessor.ainvoke_eq]
    exact Pipecat.getLast_of_bracket _ _ _
  · rw [LanggraphProcessor.ainvoke_graph_eq]
  · rw [LanggraphProcessor.ainvoke_graph_eq]
  · rw [LanggraphProcessor.ainvoke_graph_eq]
    exact Pipecat.getLast_of_bracket _ _ _
  · rfl

/-- C3 counterexample: in the simple tier an element of unrecognized
shape does produce a downstream payload event — the loop body pushes
TextFrame(__get_token_value(token)) unconditionally, so the extracted
empty string still becomes a TextChunk.  A backend yielding a single
unrecognized element makes the bridge emit TextFrame(""), refuting the
claim that no payload event is produced. -/
theorem malformed_element_counterexample :
    (LangchainProcessor.ainvoke
        ⟨fun _ => ⟨[LangchainProcessor.ChainElem.unrecognized], none⟩,
         [], "input"⟩ "x").1.pushed
      = [Pipecat.Frame.llmFullResponseStart, Pipecat.Frame.textFrame "",
         Pipecat.Frame.llmFullResponseEnd]
    ∧ Pipecat.Frame.textFrame "" ∈
        (LangchainProcessor.ainvoke
          ⟨fun _ => ⟨[LangchainProcessor.ChainElem.unrecognized], none⟩,
           [], "input"⟩ "x").1.pushed := by
  refine ⟨rfl, ?_⟩
  rw [show (LangchainProcessor.ainvoke
      ⟨fun _ => ⟨[LangchainProcessor.ChainElem.unrecognized], none⟩,
       [], "input"⟩ "x").1.pushed
    = [Pipecat.Frame.llmFullResponseStart, Pipecat.Frame.textFrame "",
       Pipecat.Frame.llmFullResponseEnd] from rfl]
  simp

/-- C3 (amended): an element of unrecognized shape never aborts the
stream — subsequent elements are still processed — and the invocation
still completes its framing bracket; in the event-graph tier it produces
no payload event at all, while in the simple tier it produces exactly
one TextChunk carrying the empty string and nothing else. -/
theorem malformed_element_tolerance :
    (∀ pre suf : List LangchainProcessor.ChainElem,
      LangchainProcessor.chainDrain
          (pre ++ LangchainProcessor.ChainElem.unrecognized :: suf)
        = LangchainProcessor.chainDrain pre
            ++ Pipecat.Frame.textFrame "" :: LangchainProcessor.chainDrain suf)
    ∧ (∀ (pre suf : List LanggraphProcessor.GraphEvent) (kind : String),
      LanggraphProcessor.graphDrain
          (pre ++ LanggraphProcessor.GraphEvent.otherEvent kind :: suf)
        = LanggraphProcessor.graphDrain pre ++ LanggraphProcessor.graphDrain suf)
    ∧ (∀ (p : LangchainProcessor.State) (text : String),
      ((LangchainProcessor.ainvoke p text).1.pushed).getLast?
        = some Pipecat.Frame.llmFullResponseEnd)
    ∧ (∀ (q : LanggraphProcessor.State) (text : String),
      ((LanggraphProcessor.ainvoke q text).1.pushed).getLast?
        = some Pipecat.Frame.llmFullResponseEnd) := by
  refine ⟨?_, ?_, ?_, ?_⟩
  · intro pre suf
    rw [show pre ++ LangchainProcessor.ChainElem.unrecognized :: suf
        = (pre ++ [LangchainProcessor.ChainElem.unrecognized]) ++ suf by simp]
    rw [LangchainProcessor.chainDrain_append, LangchainProcessor.chainDrain_append]
    simp [LangchainProcessor.chainDrain, LangchainProcessor.getTokenValue]
  · intro pre suf kind
    rw [show pre ++ LanggraphProcessor.GraphEvent.otherEvent kind :: suf
        = (pre ++ [LanggraphProcessor.GraphEvent.otherEvent kind]) ++ suf by simp]
    rw [LanggraphProcessor.graphDrain_append, LanggraphProcessor.graphDrain_append]
    simp [LanggraphProcessor.graphDrain, LanggraphProcessor.eventFrames]
  · intro p text
    rw [LangchainProcessor.ainvoke_eq]
    exact Pipecat.getLast_of_bracket _ _ _
  · intro q text
    rw [LanggraphProcessor.ainvoke_graph_eq]
    exact Pipecat.getLast_of_bracket _ _ _

/-- C4: the drain loop of either tier is the in-order concatenation of
the per-element translations: the payload frames appear downstream in
exactly the order of their source stream elements, each element handled
before the next is requested, and the full pushed sequence of _ainvoke
is the bracket around that concatenation. -/
theorem order_preservation :
    (∀ ts : List LangchainProcessor.ChainElem,
      LangchainProcessor.chainDrain ts
        = (ts.map LangchainProcessor.chainElemFrames).flatten)
    ∧ (∀ es : List LanggraphProcessor.GraphEvent,
      LanggraphProcessor.graphDrain es
        = (es.map LanggraphProcessor.eventFrames).flatten)
    ∧ (∀ (p : LangchainProcessor.State) (text : String),
      (LangchainProcessor.ainvoke p text).1.pushed
        = Pipecat.Frame.llmFullResponseStart ::
            ((((p.chain (LangchainProcessor.requestOf p text)).elems.map
                LangchainProcessor.chainElemFrames).flatten)
              ++ [Pipecat.Frame.llmFullResponseEnd]))
    ∧ (∀ (q : LanggraphProcessor.State) (text : String),
      (LanggraphProcessor.ainvoke q text).1.pushed
        = Pipecat.Frame.llmFullResponseStart ::
            ((((q.graph (LanggraphProcessor.graphRequestOf q text)).elems.map
                LanggraphProcessor.eventFrames).flatten)
              ++ [Pipecat.Frame.llmFullResponseEnd])) := by
  have hchain : ∀ ts : List LangchainProcessor.ChainElem,
      LangchainProcessor.chainDrain ts
        = (ts.map LangchainProcessor.chainElemFrames).flatten := by
    intro ts
    induction ts with
    | nil => rfl
    | cons t ts ih =>
      simp [LangchainProcessor.chainDrain, LangchainProcessor.chainElemFrames, ih]
  have hgraph : ∀ es : List LanggraphProcessor.GraphEvent,
      LanggraphProcessor.graphDrain es
        = (es.map LanggraphProcessor.eventFrames).flatten := by
    intro es
    induction es with
    | nil => rfl
    | cons e es ih =>
      simp [LanggraphProcessor.graphDrain, ih]
  refine ⟨hchain, hgraph, ?_, ?_⟩
  · intro p text
    rw [LangchainProcessor.ainvoke_eq, hchain]
  · intro q text
    rw [LanggraphProcessor.ainvoke_graph_eq, hgraph]

/-- C5: the token extractor of either processor is a total function
mapping a plain-string element to itself, an incremental message chunk
to its text content, and any other shape to the empty string; a plain
string and a chunk carrying the same text yield identical output. -/
theorem token_extractor_contract (s : String) :
    LangchainProcessor.getTokenValue (.str s) = s
    ∧ LangchainProcessor.getTokenValue (.chunk s) = s
    ∧ LangchainProcessor.getTokenValue .unrecognized = ""
    ∧ LanggraphProcessor.getTokenValue (.str s) = s
    ∧ LanggraphProcessor.getTokenValue (.chunk s) = s
    ∧ LanggraphProcessor.getTokenValue .unrecognized = ""
    ∧ LangchainProcessor.getTokenValue (.str s)
        = LangchainProcessor.getTokenValue (.chunk s)
    ∧ LanggraphProcessor.getTokenValue (.str s)
        = LanggraphProcessor.getTokenValue (.chunk s) :=
  ⟨rfl, rfl, rfl, rfl, rfl, rfl, rfl, rfl⟩

/-- C6: the event classifier policies — a model_stream event emits the
sub-bracketed TextChunk triple, a tool_start event emits nothing
(log-only), a retriever_end event emits one ToolResult per document in
backend order, and tool_end or any unknown kind emits nothing — and the
mixed-events scenario produces exactly the specified seven frames. -/
theorem event_classifier_policies (chunk : LangchainProcessor.ChainElem)
    (name : String) (input : Option String) (docs : List Pipecat.Document)
    (kind : String) :
    LanggraphProcessor.eventFrames (.onChatModelStream chunk)
      = [Pipecat.Frame.llmResponseStart,
         Pipecat.Frame.textFrame (LanggraphProcessor.getTokenValue chunk),
         Pipecat.Frame.llmResponseEnd]
    ∧ LanggraphProcessor.eventFrames (.onToolStart name input) = []
    ∧ LanggraphProcessor.eventFrames (.onRetrieverEnd docs)
      = docs.map (fun d => Pipecat.Frame.toolResultMessage d.dictExcludeNone)
    ∧ LanggraphProcessor.eventFrames .onToolEnd = []
    ∧ LanggraphProcessor.eventFrames (.otherEvent kind) = []
    ∧ (LanggraphProcessor.ainvoke
        ⟨fun _ => ⟨[.onToolStart "tool" none,
                    .onChatModelStream (.chunk "42"),
                    .onRetrieverEnd [⟨"D1"⟩, ⟨"D2"⟩]], none⟩, none⟩ "x").1.pushed
      = [Pipecat.Frame.llmFullResponseStart, Pipecat.Frame.llmResponseStart,
         Pipecat.Frame.textFrame "42", Pipecat.Frame.llmResponseEnd,
         Pipecat.Frame.toolResultMessage "D1", Pipecat.Frame.toolResultMessage "D2",
         Pipecat.Frame.llmFullResponseEnd] :=
  ⟨rfl, rfl, rfl, rfl, rfl, rfl⟩

namespace LangchainProcessor

open Pipecat

theorem llmMessages_not_pushed_chain (p : State) (text : String)
    (msgs : List Message) :
    Frame.llmMessages msgs ∉ (ainvoke p text).1.pushed := by
  rw [ainvoke_eq]
  intro h
  rcases List.mem_cons.mp h with h | h
  · exact Frame.noConfusion h
  · rcases List.mem_append.mp h with h | h
    · have := mem_chainDrain_isMid _ _ h
      simp [isMidFrame] at this
    · simp at h

theorem processFrame_trigger_chain (p : State) (init : List Message)
    (m : Message) (d : FrameDirection) :
    processFrame p (.llmMessages (init ++ [m])) d
      = ⟨((ainvoke p (pyStrip m.content)).1.pushed).map
           (fun f => (f, FrameDirection.downstream)),
         [requestOf p (pyStrip m.content)],
         (ainvoke p (pyStrip m.content)).1.diag,
         none⟩ := by
  have h : (init ++ [m]).getLast? = some m := by simp
  simp only [processFrame, h]
  rw [ainvoke_eq]
  rfl

end LangchainProcessor

namespace LanggraphProcessor

open Pipecat

theorem llmMessages_not_pushed_graph (p : State) (text : String)
    (msgs : List Message) :
    Frame.llmMessages msgs ∉ (ainvoke p text).1.pushed := by
  rw [ainvoke_graph_eq]
  intro h
  rcases List.mem_cons.mp h with h | h
  · exact Frame.noConfusion h
  · rcases List.mem_append.mp h with h | h
    · have := mem_graphDrain_isMid _ _ h
      simp [isMidFrame] at this
    · simp at h

theorem processFrame_trigger_graph (p : State) (init : List Message)
    (m : Message) (d : FrameDirection) :
    processFrame p (.llmMessages (init ++ [m])) d
      = ⟨((ainvoke p (pyStrip m.content)).1.pushed).map
           (fun f => (f, FrameDirection.downstream)),
         [graphRequestOf p (pyStrip m.content)],
         (ainvoke p (pyStrip m.content)).1.diag,
         none⟩ := by
  have h : (init ++ [m]).getLast? = some m := by simp
  simp only [processFrame, h]
  rw [ainvoke_graph_eq]
  rfl

end LanggraphProcessor

/-- C7: for a trigger LLMMessagesFrame with a non-empty message list,
process_frame of either processor extracts the content of the last
message, strips surrounding whitespace, invokes the backend exactly once
with the stripped text, and never forwards the trigger itself; the
concrete happy-path scenario pushes exactly ResponseStart,
TextChunk("Hel"), TextChunk("lo"), ResponseEnd downstream. -/
theorem trigger_handling (p : LangchainProcessor.State)
    (q : LanggraphProcessor.State) (init initg : List Pipecat.Message)
    (m mg : Pipecat.Message) (d : Pipecat.FrameDirection) :
    (LangchainProcessor.processFrame p (.llmMessages (init ++ [m])) d).calls
      = [LangchainProcessor.requestOf p (Pipecat.pyStrip m.content)]
    ∧ (LangchainProcessor.processFrame p (.llmMessages (init ++ [m])) d).pushed
      = ((LangchainProcessor.ainvoke p (Pipecat.pyStrip m.content)).1.pushed).map
          (fun f => (f, Pipecat.FrameDirection.downstream))
    ∧ (∀ msgs dir, (Pipecat.Frame.llmMessages msgs, dir)
        ∉ (LangchainProcessor.processFrame p (.llmMessages (init ++ [m])) d).pushed)
    ∧ (LanggraphProcessor.processFrame q (.llmMessages (initg ++ [mg])) d).calls
      = [LanggraphProcessor.graphRequestOf q (Pipecat.pyStrip mg.content)]
    ∧ (∀ msgs dir, (Pipecat.Frame.llmMessages msgs, dir)
        ∉ (LanggraphProcessor.processFrame q (.llmMessages (initg ++ [mg])) d).pushed)
    ∧ LangchainProcessor.processFrame
        ⟨fun _ => ⟨[.str "Hel", .str "lo"], none⟩, [], "input"⟩
        (.llmMessages [⟨"user", "  Hello  "⟩]) .downstream
      = ⟨[(Pipecat.Frame.llmFullResponseStart, .downstream),
          (Pipecat.Frame.textFrame "Hel", .downstream),
          (Pipecat.Frame.textFrame "lo", .downstream),
          (Pipecat.Frame.llmFullResponseEnd, .downstream)],
         [⟨[("input", "Hello")], []⟩], none, none⟩ := by
  refine ⟨?_, ?_, ?_, ?_, ?_, ?_⟩
  · rw [LangchainProcessor.processFrame_trigger_chain]
  · rw [LangchainProcessor.processFrame_trigger_chain]
  · intro msgs dir hmem
    rw [LangchainProcessor.processFrame_trigger_chain] at hmem
    obtain ⟨f, hf, heq⟩ := List.mem_map.mp hmem
    cases heq
    exact LangchainProcessor.llmMessages_not_pushed_chain p _ msgs hf
  · rw [LanggraphProcessor.processFrame_trigger_graph]
  · intro msgs dir hmem
    rw [LanggraphProcessor.processFrame_trigger_graph] at hmem
    obtain ⟨f, hf, heq⟩ := List.mem_map.mp hmem
    cases heq
    exact LanggraphProcessor.llmMessages_not_pushed_graph q _ msgs hf
  · rfl

namespace Pipecat

theorem lookup_dictUpdate (c u : Config) (k : String) :
    (dictUpdate c u).lookup k
      = ((u.lookup k).orElse (fun _ => c.lookup k)) := by
  induction u with
  | nil => simp [dictUpdate, Option.orElse]
  | cons a u ih =>
    obtain ⟨ka, va⟩ := a
    by_cases h : (k == ka)
    · simp [dictUpdate, List.lookup, h, Option.orElse]
    · simp only [dictUpdate, List.cons_append, List.lookup, h] at ih ⊢
      exact ih

end Pipecat

/-- C8: set_configurable replaces the configuration C by C merged with
the update U — keys of U take the values of U and keys of C absent from
U keep their old values — and the next invocation passes exactly the
current merged mapping to the backend call; in particular after
set_configurable with thread_id = "abc" the request carries
thread_id = "abc" whatever the prior configuration held. -/
theorem configuration_merge (p : LangchainProcessor.State)
    (u : Pipecat.Config) (k text : String) :
    (LangchainProcessor.setConfigurable p u).config = Pipecat.dictUpdate p.config u
    ∧ (Pipecat.dictUpdate p.config u).lookup k
        = ((u.lookup k).orElse (fun _ => p.config.lookup k))
    ∧ ((LangchainProcessor.ainvoke p text).2).configurable = p.config
    ∧ ((LangchainProcessor.ainvoke
          (LangchainProcessor.setConfigurable p u) text).2).configurable
        = Pipecat.dictUpdate p.config u
    ∧ ((LangchainProcessor.ainvoke
          (LangchainProcessor.setConfigurable p [("thread_id", "abc")])
          text).2).configurable.lookup "thread_id"
        = some "abc" := by
  refine ⟨rfl, Pipecat.lookup_dictUpdate _ _ _, ?_, ?_, ?_⟩
  · rw [LangchainProcessor.ainvoke_eq]
    rfl
  · rw [LangchainProcessor.ainvoke_eq]
    rfl
  · rw [LangchainProcessor.ainvoke_eq]
    rfl

/-- C9: every non-trigger frame, in either direction, is forwarded by
process_frame of either processor exactly once, unmodified and with its
direction preserved, with no backend call, no diagnostic and no framing
interleaved. -/
theorem non_trigger_pass_through (p : LangchainProcessor.State)
    (q : LanggraphProcessor.State) (f : Pipecat.Frame)
    (d : Pipecat.FrameDirection)
    (h : ∀ msgs, f ≠ Pipecat.Frame.llmMessages msgs) :
    LangchainProcessor.processFrame p f d = ⟨[(f, d)], [], none, none⟩
    ∧ LanggraphProcessor.processFrame q f d = ⟨[(f, d)], [], none, none⟩ := by
  refine ⟨?_, ?_⟩ <;> cases f <;> first
    | exact absurd rfl (h _)
    | rfl

/-- C9 witness: the pass-through theorem applied to a concrete
non-trigger frame travelling upstream. -/
theorem non_trigger_pass_through_witness :
    LangchainProcessor.processFrame ⟨fun _ => ⟨[], none⟩, [], "input"⟩
        (Pipecat.Frame.other 0) .upstream
      = ⟨[(Pipecat.Frame.other 0, Pipecat.FrameDirection.upstream)], [], none, none⟩
    ∧ LanggraphProcessor.processFrame ⟨fun _ => ⟨[], none⟩, none⟩
        (Pipecat.Frame.other 0) .upstream
      = ⟨[(Pipecat.Frame.other 0, Pipecat.FrameDirection.upstream)], [], none, none⟩ :=
  non_trigger_pass_through ⟨fun _ => ⟨[], none⟩, [], "input"⟩
    ⟨fun _ => ⟨[], none⟩, none⟩ (Pipecat.Frame.other 0) .upstream
    (fun _ hmsgs => Pipecat.Frame.noConfusion hmsgs)

/-- C10: a trigger LLMMessagesFrame carrying an empty message list makes
process_frame of either processor fail with an IndexError while reading
frame.messages[-1], before any frame is pushed (no ResponseStart) and
before the backend is ever invoked (no call issued). -/
theorem empty_messages_index_error (p : LangchainProcessor.State)
    (q : LanggraphProcessor.State) (d : Pipecat.FrameDirection) :
    LangchainProcessor.processFrame p (.llmMessages []) d
      = ⟨[], [], none, some "IndexError: list index out of range"⟩
    ∧ LanggraphProcessor.processFrame q (.llmMessages []) d
      = ⟨[], [], none, some "IndexError: list index out of range"⟩ :=
  ⟨rfl, rfl⟩
